import Mathlib

set_option linter.unusedVariables false

/-!
Shallow embedding of the perp-arbitrage backend: the price cache, the
freshness-aware spread recomputation, the alert gate with deduplicated
persistence, the throttled broadcast, and the per-venue market fetch
parsing (src/backend/src/services/alert.service.ts,
aggregator.service.js and the exchange services).  Prices are rationals,
timestamps are integers (milliseconds since epoch).  The global mutable
state of the TypeScript module (PRICE_CACHE, alertCache, lastDbSave,
broadcast throttle variables) is threaded explicitly; database writes are
returned as lists of rows, side-effect success/failure is an explicit
`dbOk` flag, and "now" (Date.now()) is an explicit argument.
-/

/-- Latest quote stored per venue inside an AggregatedPair
(the `ExchangePrice` interface of alert.service.ts). -/
structure ExchangePrice where
  bid : ℚ
  ask : ℚ
  timestamp : Int
  source : String
deriving DecidableEq, Repr

/-- Normalized update event delivered by a hybrid exchange connector
(the `TimestampedPrice` type consumed by `handleUpdate`). -/
structure TimestampedPrice where
  symbol : String
  bid : ℚ
  ask : ℚ
  timestamp : Int
  source : String
deriving DecidableEq, Repr

/-- The four venues wired into the V2 aggregator. -/
inductive Venue
  | vest
  | lighter
  | paradex
  | extended
deriving DecidableEq, Repr

/-- Venue identifier string used for the `bestBidEx` / `bestAskEx` fields. -/
def venueName : Venue → String
  | .vest => "vest"
  | .lighter => "lighter"
  | .paradex => "paradex"
  | .extended => "extended"

/-- The per-symbol cache entry (`AggregatedPair` of alert.service.ts).
The optional TypeScript fields `bestBidEx?` / `bestAskEx?` are `Option`s,
absent (`none`) until a recomputation sets them. -/
structure AggregatedPair where
  symbol : String
  vest : ExchangePrice
  lighter : ExchangePrice
  paradex : ExchangePrice
  extended : ExchangePrice
  bestBid : ℚ
  bestAsk : ℚ
  bestBidEx : Option String
  bestAskEx : Option String
  realSpread : ℚ
  potentialProfit : Option ℚ
deriving DecidableEq, Repr

/-- Read the per-venue quote of a pair (`pair[exchangeName]`). -/
def quoteOf (p : AggregatedPair) : Venue → ExchangePrice
  | .vest => p.vest
  | .lighter => p.lighter
  | .paradex => p.paradex
  | .extended => p.extended

/-- Overwrite the per-venue quote of a pair (the four field assignments of
`handleUpdate`: bid, ask, timestamp, source). -/
def setQuote (v : Venue) (q : ExchangePrice) (p : AggregatedPair) : AggregatedPair :=
  match v with
  | .vest => { p with vest := q }
  | .lighter => { p with lighter := q }
  | .paradex => { p with paradex := q }
  | .extended => { p with extended := q }

/-- Constant STALE_THRESHOLD = 30000 ms (30 seconds). -/
def STALE_THRESHOLD : Int := 30000

/-- Constant ALERT_THRESHOLD = 0.5 (percent). -/
def ALERT_THRESHOLD : ℚ := 1 / 2

/-- Constant DB_SAVE_THROTTLE = 5000 ms. -/
def DB_SAVE_THROTTLE : Int := 5000

/-- Constant CACHE_TTL = 60000 ms (alert dedup cool-down). -/
def CACHE_TTL : Int := 60000

/-- Constant BROADCAST_THROTTLE = 1000 ms. -/
def BROADCAST_THROTTLE : Int := 1000

/-- Create the empty pair structure (`createPair` of alert.service.ts):
all four venue quotes zeroed with timestamp 0 and source "none",
bestBid = bestAsk = 0, realSpread = 0, venue fields absent. -/
def createPair (symbol : String) : AggregatedPair :=
  { symbol := symbol
    vest := { bid := 0, ask := 0, timestamp := 0, source := "none" }
    lighter := { bid := 0, ask := 0, timestamp := 0, source := "none" }
    paradex := { bid := 0, ask := 0, timestamp := 0, source := "none" }
    extended := { bid := 0, ask := 0, timestamp := 0, source := "none" }
    bestBid := 0
    bestAsk := 0
    bestBidEx := none
    bestAskEx := none
    realSpread := 0
    potentialProfit := none }

/-- Freshness check (`isFresh` of alert.service.ts):
`timestamp > 0 && (Date.now() - timestamp) <= STALE_THRESHOLD`. -/
def isFresh (now timestamp : Int) : Bool :=
  decide (0 < timestamp) && decide (now - timestamp ≤ STALE_THRESHOLD)

/-- Fixed venue iteration / tie-break priority order (the spec fixes the
tie-break to a deterministic configured priority list; here it is the
field order of `AggregatedPair`). -/
def venueOrder : List Venue := [.vest, .lighter, .paradex, .extended]

/-- The per-venue quotes of a pair that pass the freshness predicate and
have bid > 0 and ask > 0 (the set F of spec section 4.3), in venue
priority order. -/
def freshValidPairs (fresh : ExchangePrice → Bool) (p : AggregatedPair) :
    List (Venue × ExchangePrice) :=
  (venueOrder.map (fun v => (v, quoteOf p v))).filter
    (fun vq => fresh vq.2 && decide (0 < vq.2.bid) && decide (0 < vq.2.ask))

/-- Modelled from the spec: the body of `calculateSpreads`
(src/backend/src/services/spread.service.ts is not part of the provided
sources; only its callers are).  Spec section 4.3: let F be the quotes
passing the supplied freshness predicate with bid > 0 and ask > 0.  If F
is empty, bestBid/bestAsk are cleared to the no-signal value (0, the
value `createPair` uses, with the venue fields cleared); otherwise
bestBid is the maximum bid over F and bestAsk the minimum ask over F,
ties broken by the fixed venue priority order, and
realSpread = (bestBid - bestAsk) / bestAsk * 100. -/
def recomputePair (fresh : ExchangePrice → Bool) (p : AggregatedPair) : AggregatedPair :=
  match freshValidPairs fresh p with
  | [] =>
      { p with bestBid := 0, bestAsk := 0, bestBidEx := none, bestAskEx := none,
               realSpread := 0 }
  | x :: xs =>
      let bb := xs.foldl (fun acc y => if acc.2.bid < y.2.bid then y else acc) x
      let ba := xs.foldl (fun acc y => if y.2.ask < acc.2.ask then y else acc) x
      { p with bestBid := bb.2.bid, bestAsk := ba.2.ask,
               bestBidEx := some (venueName bb.1), bestAskEx := some (venueName ba.1),
               realSpread := (bb.2.bid - ba.2.ask) / ba.2.ask * 100 }

/-- The price cache: a key-ordered association list standing for the
PRICE_CACHE object (JavaScript objects preserve insertion order). -/
abbrev Cache := List (String × AggregatedPair)

/-- Modelled from the spec: `calculateSpreads(PRICE_CACHE, pred)` mutates
every pair of the cache in place, recomputing its best fields. -/
def calculateSpreads (c : Cache) (fresh : ExchangePrice → Bool) : Cache :=
  (c : List (String × AggregatedPair)).map (fun sp => (sp.1, recomputePair fresh sp.2))

/-- Mutable module state threaded through the aggregator: the price cache
and the per-symbol lastDbSave map. -/
structure AggState where
  cache : Cache
  lastDbSave : String → Option Int

/-- Row written by `saveSpread` (the price-metric insert). -/
structure MetricRow where
  symbol : String
  spread : ℚ
  bestBid : ℚ
  bestAsk : ℚ
  bestBidEx : Option String
  bestAskEx : Option String
deriving DecidableEq, Repr

/-- One step of the `Object.values(PRICE_CACHE).forEach` body of
`updateAndRecalculate`: inside `if (pair.bestBid > 0 && pair.bestAsk > 0)`,
first the DB-save throttle (saveSpread at most once per DB_SAVE_THROTTLE
per symbol), then the alert check `pair.realSpread >= ALERT_THRESHOLD`
which calls `saveAlert(pair)`; alert attempts are accumulated as the list
of pairs passed to `saveAlert`. -/
def alertStep (now : Int)
    (acc : (String → Option Int) × List MetricRow × List AggregatedPair)
    (p : AggregatedPair) :
    (String → Option Int) × List MetricRow × List AggregatedPair :=
  if 0 < p.bestBid ∧ 0 < p.bestAsk then
    let lastSave := (acc.1 p.symbol).getD 0
    let m2 := if DB_SAVE_THROTTLE ≤ now - lastSave then
        (fun s => if s = p.symbol then some now else acc.1 s)
      else acc.1
    let rows2 := if DB_SAVE_THROTTLE ≤ now - lastSave then
        acc.2.1 ++ [{ symbol := p.symbol, spread := p.realSpread, bestBid := p.bestBid,
                      bestAsk := p.bestAsk, bestBidEx := p.bestBidEx,
                      bestAskEx := p.bestAskEx : MetricRow }]
      else acc.2.1
    let alerts2 := if ALERT_THRESHOLD ≤ p.realSpread then acc.2.2 ++ [p] else acc.2.2
    (m2, rows2, alerts2)
  else acc

/-- Recompute all spreads using only fresh data, then walk the cache
saving throttled metrics and collecting alert attempts, as in
`updateAndRecalculate` of alert.service.ts.  Returns the new state, the
metric rows written, and the pairs handed to `saveAlert`. -/
def updateAndRecalculate (now : Int) (st : AggState) :
    AggState × List MetricRow × List AggregatedPair :=
  let cache := calculateSpreads st.cache (fun q => isFresh now q.timestamp)
  let folded := ((cache : List (String × AggregatedPair)).map Prod.snd).foldl
    (alertStep now) (st.lastDbSave, [], [])
  ({ cache := cache, lastDbSave := folded.1 }, folded.2.1, folded.2.2)

/-- Look up an entry of the cache (property access PRICE_CACHE[symbol]). -/
def cacheLookup (c : Cache) (s : String) : Option AggregatedPair :=
  (c : List (String × AggregatedPair)).lookup s

/-- Ensure pair exists in cache (`ensurePair`): `none` when the symbol is
not in ALLOWED_SYMBOLS; otherwise the cache, extended with a fresh
`createPair` entry when the symbol was missing. -/
def ensurePair (allowed : List String) (c : Cache) (symbol : String) : Option Cache :=
  if symbol ∈ allowed then
    some (if (cacheLookup c symbol).isSome then c
          else (c : List (String × AggregatedPair)) ++ [(symbol, createPair symbol)])
  else none

/-- Generic handler for all exchange updates (`handleUpdate`): drop the
event when the symbol is not allow-listed, otherwise unconditionally
overwrite the per-venue quote with the event's bid/ask/timestamp/source
and run `updateAndRecalculate`. -/
def handleUpdate (allowed : List String) (now : Int) (st : AggState)
    (exchangeName : Venue) (data : TimestampedPrice) :
    AggState × List MetricRow × List AggregatedPair :=
  match ensurePair allowed st.cache data.symbol with
  | none => (st, [], [])
  | some c0 =>
      let q : ExchangePrice :=
        { bid := data.bid, ask := data.ask, timestamp := data.timestamp,
          source := data.source }
      let c1 : Cache := (c0 : List (String × AggregatedPair)).map
        (fun sp => if sp.1 = data.symbol then (sp.1, setQuote exchangeName q sp.2) else sp)
      updateAndRecalculate now { st with cache := c1 }

/-- Get current price cache (`getPriceCache`): the cache filtered to the
currently allowed symbols. -/
def getPriceCache (allowed : List String) (c : Cache) : List (String × AggregatedPair) :=
  allowed.filterMap (fun s => (cacheLookup c s).map (fun p => (s, p)))

/-- Cache seeding performed by `startScheduler`: one `createPair` entry
per allow-listed symbol. -/
def initCache (allowed : List String) : Cache :=
  allowed.map (fun s => (s, createPair s))

/-- Apply a sequence of connector updates, each tagged with its arrival
time and venue, through `handleUpdate`. -/
def applyUpdates (allowed : List String) (st : AggState)
    (upds : List (Int × Venue × TimestampedPrice)) : AggState :=
  upds.foldl (fun st u => (handleUpdate allowed u.1 st u.2.1 u.2.2).1) st

/-- Outcome of a `saveAlert` call: `ok` when the INSERT ran and succeeded
(the promise resolves with the row id), `dedup` when the call resolved
`null` because the symbol alerted within CACHE_TTL, `error` when the
INSERT failed (the promise rejects). -/
inductive SaveResult
  | ok
  | dedup
  | error
deriving DecidableEq, Repr

/-- Row written by `saveAlert` into the alerts table, with the column
order of its INSERT statement: (timestamp, symbol, spread, exchange_buy,
exchange_sell, price_buy, price_sell). -/
structure AlertRow where
  timestamp : Int
  symbol : String
  spread : ℚ
  exchange_buy : Option String
  exchange_sell : Option String
  price_buy : ℚ
  price_sell : ℚ
deriving DecidableEq, Repr

/-- Persist an alert (`saveAlert` of alert.service.ts).  The state is the
module-level `alertCache` map from symbol to last-alert time.  The JS
truthiness test `if (lastAlertTime && ...)` is modelled by the `t ≠ 0`
conjunct.  On the attempt path, the INSERT binds
(now, symbol, realSpread, bestAskEx, bestBidEx, bestAsk, bestBid); on
success the cache is updated to `now`, on failure (dbOk = false) the
promise rejects and the cache is left untouched.  Returns the result,
the new alertCache and the rows written. -/
def saveAlert (alertCache : String → Option Int) (now : Int) (dbOk : Bool)
    (opportunity : AggregatedPair) :
    SaveResult × (String → Option Int) × List AlertRow :=
  let attempt : SaveResult × (String → Option Int) × List AlertRow :=
    if dbOk then
      (.ok, fun s => if s = opportunity.symbol then some now else alertCache s,
       [{ timestamp := now, symbol := opportunity.symbol,
          spread := opportunity.realSpread,
          exchange_buy := opportunity.bestAskEx,
          exchange_sell := opportunity.bestBidEx,
          price_buy := opportunity.bestAsk,
          price_sell := opportunity.bestBid : AlertRow }])
    else (.error, alertCache, [])
  match alertCache opportunity.symbol with
  | some lastAlertTime =>
      if lastAlertTime ≠ 0 ∧ now - lastAlertTime < CACHE_TTL then
        (.dedup, alertCache, [])
      else attempt
  | none => attempt

/-- Run `saveAlert` over a list of alert attempts in order (the forEach of
`updateAndRecalculate` calling `saveAlert(pair)` for each qualifying
pair), threading the alertCache and concatenating the written rows. -/
def processAlerts (alertCache : String → Option Int) (now : Int) (dbOk : Bool)
    (attempts : List AggregatedPair) :
    (String → Option Int) × List AlertRow :=
  attempts.foldl
    (fun acc p =>
      let r := saveAlert acc.1 now dbOk p
      (r.2.1, acc.2 ++ r.2.2))
    (alertCache, [])

/-- State of the broadcast throttle of alert.service.ts: the module
variables `lastBroadcastTime` (initially 0) and `broadcastPending`
(modelled as the absolute fire time of the scheduled setTimeout, `none`
when no trailing broadcast is pending), plus an observation layer: `ver`
counts cache-change signals seen so far (the cache version a broadcast
would serialize) and `log` records each emitted broadcast as (time,
version).  The model assumes a registered broadcaster and a non-empty
cache, so `performBroadcast` always emits. -/
structure ThrottleState where
  lastBroadcastTime : Int
  broadcastPending : Option Int
  ver : Nat
  log : List (Int × Nat)
deriving DecidableEq, Repr

/-- Emit a broadcast at `fireTime` (`performBroadcast`): serializes the
current cache (version `ver`) and records `lastBroadcastTime`. -/
def performBroadcast (s : ThrottleState) (fireTime : Int) : ThrottleState :=
  { s with lastBroadcastTime := fireTime, log := s.log ++ [(fireTime, s.ver)] }

/-- Deliver a due setTimeout callback: if a trailing broadcast was
scheduled for a time ≤ `t`, it fires (performBroadcast, then
`broadcastPending = false`) before anything happening at time `t`. -/
def fireDue (s : ThrottleState) (t : Int) : ThrottleState :=
  match s.broadcastPending with
  | some ft =>
      if ft ≤ t then { performBroadcast s ft with broadcastPending := none } else s
  | none => s

/-- Throttled broadcast (`throttledBroadcast` at time `now`): return at
once when a trailing broadcast is already pending; broadcast immediately
when at least BROADCAST_THROTTLE elapsed since the last broadcast;
otherwise schedule exactly one trailing broadcast for the remainder of
the window (`setTimeout(..., BROADCAST_THROTTLE - timeSinceLast)`, which
fires at `lastBroadcastTime + BROADCAST_THROTTLE`). -/
def throttledBroadcast (s : ThrottleState) (now : Int) : ThrottleState :=
  match s.broadcastPending with
  | some _ => s
  | none =>
      if BROADCAST_THROTTLE ≤ now - s.lastBroadcastTime then performBroadcast s now
      else { s with broadcastPending := some (s.lastBroadcastTime + BROADCAST_THROTTLE) }

/-- A cache-change signal at time `t`: any setTimeout due by `t` fires
first, the cache version advances (the update that caused the signal),
then `throttledBroadcast` runs. -/
def signalAt (s : ThrottleState) (t : Int) : ThrottleState :=
  let s1 := fireDue s t
  throttledBroadcast { s1 with ver := s1.ver + 1 } t

/-- Run a time-ordered list of cache-change signals. -/
def runSignals (s : ThrottleState) (ts : List Int) : ThrottleState :=
  ts.foldl signalAt s

/-- Let a still-pending trailing setTimeout fire after the last signal. -/
def flushPending (s : ThrottleState) : ThrottleState :=
  match s.broadcastPending with
  | some ft => { performBroadcast s ft with broadcastPending := none }
  | none => s

/-- Lowercase a string through its character list (the JS
`toLowerCase()` applied to the ASCII status strings involved); defined
structurally so that concrete instances evaluate. -/
def strToLower (s : String) : String := String.mk (s.data.map Char.toLower)

/-- Market record as returned by a fetchMarkets call (`MarketData`). -/
structure MarketData where
  symbol : String
  bid : ℚ
  ask : ℚ
deriving DecidableEq, Repr

namespace ExtendedService

/-- Per-market stats of the Extended REST payload; `none` stands for a
missing or unparseable (falsy / NaN) price field. -/
structure MarketStats where
  bidPrice : Option ℚ
  askPrice : Option ℚ
deriving DecidableEq, Repr

/-- One raw market record of the Extended REST payload. -/
structure RawMarket where
  name : Option String
  active : Bool
  status : String
  marketStats : Option MarketStats
deriving DecidableEq, Repr

/-- Response body of the Extended markets endpoint; `status` and `data`
are `none` when the field is missing or of the wrong shape. -/
structure MarketsResponse where
  status : Option String
  data : Option (List RawMarket)
deriving DecidableEq, Repr

/-- Validate and normalize one Extended market record, mirroring the
forEach body of `ExtendedService.fetchMarkets`: a record is skipped
(`none`) when the name is missing or has no dash, the base symbol is not
allow-listed, the market is not active/ACTIVE, stats or a price are
missing, or a price is not positive. -/
def parseMarket (allowed : List String) (m : RawMarket) : Option MarketData :=
  match m.name with
  | none => none
  | some marketName =>
      let parts := marketName.splitOn "-"
      if parts.length < 2 then none
      else
        let baseSymbol := parts.headD ""
        if baseSymbol ∉ allowed then none
        else if ¬(m.active = true ∧ m.status = "ACTIVE") then none
        else
          match m.marketStats with
          | none => none
          | some stats =>
              match stats.bidPrice, stats.askPrice with
              | some bid, some ask =>
                  if 0 < bid ∧ 0 < ask then
                    some { symbol := baseSymbol, bid := bid, ask := ask }
                  else none
              | _, _ => none

/-- Fetch markets via REST (`ExtendedService.fetchMarkets`).  The request
outcome is an `Except`: a thrown request failure (refused connect,
timeout, transport-level malformed response) lands in the catch block,
which logs and returns the accumulated (empty) result list; a response
whose envelope is not `status: ok` with an array `data` returns the empty
list without logging.  The Bool records whether `logger.error` ran.  The
function is total: no failure propagates to the caller. -/
def fetchMarkets (allowed : List String) (res : Except Unit MarketsResponse) :
    List MarketData × Bool :=
  match res with
  | .error _ => ([], true)
  | .ok r =>
      match r.status, r.data with
      | some st, some markets =>
          if strToLower st = "ok" then (markets.filterMap (parseMarket allowed), false)
          else ([], false)
      | _, _ => ([], false)

end ExtendedService

namespace LighterService

/-- One raw record of the Lighter order_book_details payload; price
fields are `none` when missing/falsy (the JS `||` fallback then applies). -/
structure RawMarket where
  market_type : String
  status : String
  symbol : String
  best_bid : Option ℚ
  best_ask : Option ℚ
  last_trade_price : Option ℚ
deriving DecidableEq, Repr

/-- Validate and normalize one Lighter market record, mirroring the
forEach body of `LighterService.fetchMarkets`: only active perp markets,
symbol split on "--", isCrypto filter (the allow-list style predicate
from the configuration), best bid/ask with last_trade_price fallback,
kept only when both prices are positive. -/
def parseMarket (isCrypto : String → Bool) (m : RawMarket) : Option MarketData :=
  if m.market_type = "perp" ∧ m.status = "active" then
    let symbol := if (m.symbol.splitOn "--").length > 1 then
        (m.symbol.splitOn "--").headD ""
      else m.symbol
    if ¬ isCrypto symbol then none
    else
      let bestBid := (m.best_bid.orElse (fun _ => m.last_trade_price)).getD 0
      let bestAsk := (m.best_ask.orElse (fun _ => m.last_trade_price)).getD 0
      if 0 < bestBid ∧ 0 < bestAsk then
        some { symbol := symbol, bid := bestBid, ask := bestAsk }
      else none
  else none

/-- Fetch markets via REST (`LighterService.fetchMarkets`).  A thrown
request failure is caught, logged (`Bool` = true) and turned into the
empty list; `order_book_details` missing falls back to `[]`.  Total: no
failure propagates to the caller. -/
def fetchMarkets (isCrypto : String → Bool)
    (res : Except Unit (Option (List RawMarket))) : List MarketData × Bool :=
  match res with
  | .error _ => ([], true)
  | .ok body => ((body.getD []).filterMap (parseMarket isCrypto), false)

end LighterService

/-- Best bid as the specification words it: the maximum bid over exactly
the per-venue quotes of the symbol that pass the freshness predicate and
have bid > 0 and ask > 0; 0 (the no-signal value) when that set is
empty. -/
def specBestBid (fresh : ExchangePrice → Bool) (p : AggregatedPair) : ℚ :=
  match (freshValidPairs fresh p).map (fun vq => vq.2.bid) with
  | [] => 0
  | b :: bs => bs.foldl max b

/-- Best ask as the specification words it: the minimum ask over exactly
the fresh valid per-venue quotes; 0 (the no-signal value) when that set
is empty. -/
def specBestAsk (fresh : ExchangePrice → Bool) (p : AggregatedPair) : ℚ :=
  match (freshValidPairs fresh p).map (fun vq => vq.2.ask) with
  | [] => 0
  | a :: as' => as'.foldl min a

lemma foldl_pick_bid (xs : List (Venue × ExchangePrice)) (x : Venue × ExchangePrice) :
    (xs.foldl (fun acc y => if acc.2.bid < y.2.bid then y else acc) x).2.bid =
      xs.foldl (fun a y => max a y.2.bid) x.2.bid := by
  induction xs generalizing x with
  | nil => rfl
  | cons y ys ih =>
      simp only [List.foldl_cons]
      rw [ih]
      congr 1
      by_cases h : x.2.bid < y.2.bid
      · simp [h, max_eq_right h.le]
      · simp [h, max_eq_left (not_lt.mp h)]

lemma foldl_pick_ask (xs : List (Venue × ExchangePrice)) (x : Venue × ExchangePrice) :
    (xs.foldl (fun acc y => if y.2.ask < acc.2.ask then y else acc) x).2.ask =
      xs.foldl (fun a y => min a y.2.ask) x.2.ask := by
  induction xs generalizing x with
  | nil => rfl
  | cons y ys ih =>
      simp only [List.foldl_cons]
      rw [ih]
      congr 1
      by_cases h : y.2.ask < x.2.ask
      · simp [h, min_eq_right h.le]
      · simp [h, min_eq_left (not_lt.mp h)]

lemma recompute_bestBid (fresh : ExchangePrice → Bool) (p : AggregatedPair) :
    (recomputePair fresh p).bestBid = specBestBid fresh p := by
  unfold recomputePair specBestBid
  cases h : freshValidPairs fresh p with
  | nil => simp
  | cons x xs =>
      simp only [List.map_cons]
      rw [foldl_pick_bid, List.foldl_map]

lemma recompute_bestAsk (fresh : ExchangePrice → Bool) (p : AggregatedPair) :
    (recomputePair fresh p).bestAsk = specBestAsk fresh p := by
  unfold recomputePair specBestAsk
  cases h : freshValidPairs fresh p with
  | nil => simp
  | cons x xs =>
      simp only [List.map_cons]
      rw [foldl_pick_ask, List.foldl_map]

lemma quoteOf_recomputePair (fresh : ExchangePrice → Bool) (p : AggregatedPair) (v : Venue) :
    quoteOf (recomputePair fresh p) v = quoteOf p v := by
  unfold recomputePair
  split <;> cases v <;> rfl

lemma quoteOf_setQuote (v : Venue) (q : ExchangePrice) (p : AggregatedPair) :
    quoteOf (setQuote v q p) v = q := by
  cases v <;> rfl

lemma freshValidPairs_recomputePair (f g : ExchangePrice → Bool) (p : AggregatedPair) :
    freshValidPairs f (recomputePair g p) = freshValidPairs f p := by
  unfold freshValidPairs
  simp [quoteOf_recomputePair]

lemma specBestBid_recomputePair (f g : ExchangePrice → Bool) (p : AggregatedPair) :
    specBestBid f (recomputePair g p) = specBestBid f p := by
  unfold specBestBid
  rw [freshValidPairs_recomputePair]

lemma specBestAsk_recomputePair (f g : ExchangePrice → Bool) (p : AggregatedPair) :
    specBestAsk f (recomputePair g p) = specBestAsk f p := by
  unfold specBestAsk
  rw [freshValidPairs_recomputePair]

lemma lookup_map_values {β : Type} (f : β → β) (l : List (String × β)) (s : String) :
    (l.map (fun sp => (sp.1, f sp.2))).lookup s = (l.lookup s).map f := by
  induction l with
  | nil => rfl
  | cons a t ih =>
      obtain ⟨k, b⟩ := a
      simp only [List.map_cons, List.lookup_cons]
      cases hbeq : s == k
      · exact ih
      · rfl

lemma lookup_map_upd {β : Type} (f : β → β) (s : String) (l : List (String × β)) :
    (l.map (fun sp => if sp.1 = s then (sp.1, f sp.2) else sp)).lookup s =
      (l.lookup s).map f := by
  induction l with
  | nil => rfl
  | cons a t ih =>
      obtain ⟨k, b⟩ := a
      by_cases h : k = s
      · subst h
        simp only [List.map_cons, eq_self_iff_true, if_true, List.lookup_cons]
        cases hbeq : k == k
        · simp at hbeq
        · rfl
      · simp only [List.map_cons, if_neg h, List.lookup_cons]
        cases hbeq : s == k
        · exact ih
        · have heq : s = k := by simpa using hbeq
          exact absurd heq.symm h

lemma lookup_append_right_of_none {β : Type} (l : List (String × β)) (s : String) (b : β)
    (h : l.lookup s = none) : (l ++ [(s, b)]).lookup s = some b := by
  induction l with
  | nil =>
      simp only [List.nil_append, List.lookup_cons]
      cases hbeq : s == s
      · simp at hbeq
      · rfl
  | cons a t ih =>
      obtain ⟨k, v⟩ := a
      simp only [List.lookup_cons] at h
      simp only [List.cons_append, List.lookup_cons]
      cases hbeq : s == k
      · simp only [hbeq] at h
        exact ih h
      · simp only [hbeq] at h
        simp at h

lemma lookup_isSome_iff {β : Type} (l : List (String × β)) (s : String) :
    (l.lookup s).isSome = true ↔ s ∈ l.map Prod.fst := by
  induction l with
  | nil => simp
  | cons a t ih =>
      obtain ⟨k, v⟩ := a
      simp only [List.lookup_cons, List.map_cons, List.mem_cons]
      cases hbeq : s == k
      · have hne : s ≠ k := fun e => by simp [e] at hbeq
        simp [ih, hne]
      · have heq : s = k := by simpa using hbeq
        simp [heq]

lemma map_fst_map_upd {β : Type} (f : β → β) (s : String) (l : List (String × β)) :
    (l.map (fun sp => if sp.1 = s then (sp.1, f sp.2) else sp)).map Prod.fst =
      l.map Prod.fst := by
  induction l with
  | nil => rfl
  | cons a t ih => by_cases h : a.1 = s <;> simp [h, ih]

lemma map_fst_map_values {β : Type} (f : β → β) (l : List (String × β)) :
    (l.map (fun sp => (sp.1, f sp.2))).map Prod.fst = l.map Prod.fst := by
  induction l with
  | nil => rfl
  | cons a t ih => simp [ih]

lemma calculateSpreads_lookup (c : Cache) (fresh : ExchangePrice → Bool) (s : String) :
    cacheLookup (calculateSpreads c fresh) s =
      (cacheLookup c s).map (recomputePair fresh) :=
  lookup_map_values (recomputePair fresh) c s

lemma getPriceCache_keys (allowed : List String) (c : Cache)
    (h : ∀ s ∈ allowed, (cacheLookup c s).isSome) :
    (getPriceCache allowed c).map Prod.fst = allowed := by
  induction allowed with
  | nil => rfl
  | cons a t ih =>
      obtain ⟨p, hp⟩ := Option.isSome_iff_exists.mp (h a (List.mem_cons_self a t))
      simp only [getPriceCache, List.filterMap_cons, hp, Option.map_some']
      simp only [List.map_cons]
      exact congrArg (List.cons a) (ih (fun s hs => h s (List.mem_cons_of_mem a hs)))

lemma handleUpdate_cache (allowed : List String) (now : Int) (st : AggState)
    (v : Venue) (d : TimestampedPrice) (hmem : d.symbol ∈ allowed) :
    (handleUpdate allowed now st v d).1.cache =
      calculateSpreads
        ((if (cacheLookup st.cache d.symbol).isSome then st.cache
          else st.cache ++ [(d.symbol, createPair d.symbol)]).map
          (fun sp => if sp.1 = d.symbol then
              (sp.1, setQuote v { bid := d.bid, ask := d.ask, timestamp := d.timestamp,
                                  source := d.source } sp.2)
            else sp))
        (fun q => isFresh now q.timestamp) := by
  simp [handleUpdate, ensurePair, hmem, updateAndRecalculate]

lemma handleUpdate_keys (allowed : List String) (now : Int) (st : AggState)
    (v : Venue) (d : TimestampedPrice)
    (hk : st.cache.map Prod.fst = allowed) :
    ((handleUpdate allowed now st v d).1.cache).map Prod.fst = allowed := by
  by_cases hmem : d.symbol ∈ allowed
  · have hs : (cacheLookup st.cache d.symbol).isSome := by
      unfold cacheLookup
      rw [lookup_isSome_iff, hk]
      exact hmem
    rw [handleUpdate_cache allowed now st v d hmem, if_pos hs]
    unfold calculateSpreads
    rw [map_fst_map_values, map_fst_map_upd, hk]
  · simp [handleUpdate, ensurePair, hmem, hk]

lemma applyUpdates_keys (allowed : List String)
    (upds : List (Int × Venue × TimestampedPrice)) :
    ∀ (st : AggState), st.cache.map Prod.fst = allowed →
      ((applyUpdates allowed st upds).cache).map Prod.fst = allowed := by
  induction upds with
  | nil => intro st hk; exact hk
  | cons u rest ih =>
      intro st hk
      exact ih _ (handleUpdate_keys allowed u.1 st u.2.1 u.2.2 hk)

lemma initCache_keys (allowed : List String) :
    (initCache allowed).map Prod.fst = allowed := by
  induction allowed with
  | nil => rfl
  | cons a t ih =>
      simp only [initCache, List.map_cons]
      exact congrArg (List.cons a) ih

lemma alertStep_foldl_alerts (now : Int) (l : List AggregatedPair) :
    ∀ (m : String → Option Int) (rows : List MetricRow) (alerts : List AggregatedPair),
      (l.foldl (alertStep now) (m, rows, alerts)).2.2 =
        alerts ++ l.filter
          (fun p => decide (0 < p.bestBid) && decide (0 < p.bestAsk) &&
            decide (ALERT_THRESHOLD ≤ p.realSpread)) := by
  induction l with
  | nil => intro m rows alerts; simp
  | cons p t ih =>
      intro m rows alerts
      simp only [List.foldl_cons, List.filter_cons]
      by_cases h1 : 0 < p.bestBid ∧ 0 < p.bestAsk
      · by_cases h2 : ALERT_THRESHOLD ≤ p.realSpread
        · simp only [alertStep, if_pos h1, if_pos h2]
          rw [ih]
          simp [h1.1, h1.2, h2]
        · simp only [alertStep, if_pos h1, if_neg h2]
          rw [ih]
          simp [h2]
      · simp only [alertStep, if_neg h1]
        rw [ih]
        rcases not_and_or.mp h1 with hb | ha
        · simp [hb]
        · simp [ha]

lemma runSignals_pending (ft : Int) (rest : List Int) :
    ∀ (s : ThrottleState), s.broadcastPending = some ft →
      (∀ t ∈ rest, t < ft) →
      (runSignals s rest).lastBroadcastTime = s.lastBroadcastTime ∧
      (runSignals s rest).broadcastPending = some ft ∧
      (runSignals s rest).log = s.log ∧
      (runSignals s rest).ver = s.ver + rest.length := by
  induction rest with
  | nil =>
      intro s hp ht
      exact ⟨rfl, hp, rfl, rfl⟩
  | cons t ts ih =>
      intro s hp ht
      have hlt : t < ft := ht t (List.mem_cons_self t ts)
      have h1 : fireDue s t = s := by
        simp [fireDue, hp, not_le.mpr hlt]
      have hstep : signalAt s t = { s with ver := s.ver + 1 } := by
        simp only [signalAt]
        rw [h1]
        simp [throttledBroadcast, hp]
      have hrec := ih { s with ver := s.ver + 1 } (by simpa using hp)
        (fun u hu => ht u (List.mem_cons_of_mem t hu))
      simp only [runSignals, List.foldl_cons] at *
      rw [hstep]
      refine ⟨hrec.1, hrec.2.1, hrec.2.2.1, ?_⟩
      rw [hrec.2.2.2]
      simp only [List.length_cons]
      omega

lemma flushPending_log_of_some (s : ThrottleState) (ft : Int)
    (h : s.broadcastPending = some ft) :
    (flushPending s).log = s.log ++ [(ft, s.ver)] := by
  simp [flushPending, h, performBroadcast]

lemma cacheLookup_map_upd (f : AggregatedPair → AggregatedPair) (s : String) (l : Cache) :
    cacheLookup (l.map (fun sp => if sp.1 = s then (sp.1, f sp.2) else sp)) s =
      (cacheLookup l s).map f :=
  lookup_map_upd f s l

lemma cacheLookup_append_of_none (l : Cache) (s : String) (p : AggregatedPair)
    (h : cacheLookup l s = none) :
    cacheLookup (l ++ [(s, p)]) s = some p :=
  lookup_append_right_of_none l s p h

/-- Concrete fixtures used by witnesses and counterexamples. -/
def zeroQuote : ExchangePrice := { bid := 0, ask := 0, timestamp := 0, source := "none" }

/-- Concrete allow-list with the single symbol BTC. -/
def allowedX : List String := ["BTC"]

/-- Concrete start state: seeded cache, no DB saves yet. -/
def stX : AggState := { cache := initCache allowedX, lastDbSave := fun _ => none }

/-- Concrete vest update at time 1000. -/
def d1X : TimestampedPrice :=
  { symbol := "BTC", bid := 1, ask := 2, timestamp := 1000, source := "vest" }

/-- Concrete vest update carrying an older timestamp (500 < 1000). -/
def d2X : TimestampedPrice :=
  { symbol := "BTC", bid := 3, ask := 4, timestamp := 500, source := "vest" }

/-- Concrete vest update with a crossed book: bid 101 above ask 100. -/
def dxX : TimestampedPrice :=
  { symbol := "BTC", bid := 101, ask := 100, timestamp := 1000, source := "vest" }

/-- Cache state after applying `d1X`. -/
def st1X : AggState := (handleUpdate allowedX 1000 stX .vest d1X).1

/-- Cache state after applying `d1X` then the older-timestamped `d2X`. -/
def st2X : AggState := (handleUpdate allowedX 1000 st1X .vest d2X).1

/-- The pair produced by upserting `dxX` into the seeded cache. -/
def pX : AggregatedPair :=
  { symbol := "BTC"
    vest := { bid := 101, ask := 100, timestamp := 1000, source := "vest" }
    lighter := zeroQuote
    paradex := zeroQuote
    extended := zeroQuote
    bestBid := 101
    bestAsk := 100
    bestBidEx := some "vest"
    bestAskEx := some "vest"
    realSpread := 1
    potentialProfit := none }

/-- The alert row persisted for `pX` at time 1000. -/
def rowX : AlertRow :=
  { timestamp := 1000, symbol := "BTC", spread := 1, exchange_buy := some "vest",
    exchange_sell := some "vest", price_buy := 100, price_sell := 101 }

/-- Claim C1: after the recomputation triggered by an upsert of an
allow-listed symbol, every cache entry has bestBid equal to the maximum
bid, and bestAsk equal to the minimum ask, over exactly those per-venue
quotes of that symbol that are fresh at evaluation time (timestamp > 0
and age at most the 30 s staleness window, the source `isFresh`) and
have bid > 0 and ask > 0; when that set is empty both are cleared to the
no-signal value (`specBestBid` / `specBestAsk` are worded from the claim
and yield 0 on the empty set). -/
theorem bestBid_max_bestAsk_min_after_upsert
    (allowed : List String) (now : Int) (st : AggState) (v : Venue)
    (d : TimestampedPrice) (s : String) (p' : AggregatedPair)
    (hmem : d.symbol ∈ allowed)
    (hp : cacheLookup ((handleUpdate allowed now st v d).1.cache) s = some p') :
    p'.bestBid = specBestBid (fun q => isFresh now q.timestamp) p' ∧
    p'.bestAsk = specBestAsk (fun q => isFresh now q.timestamp) p' := by
  rw [handleUpdate_cache allowed now st v d hmem, calculateSpreads_lookup] at hp
  obtain ⟨p, hpp, hrec⟩ := Option.map_eq_some'.mp hp
  subst hrec
  constructor
  · rw [recompute_bestBid, specBestBid_recomputePair]
  · rw [recompute_bestAsk, specBestAsk_recomputePair]

/-- Witness for C1 at the concrete upsert `dxX` (vest bid 101 / ask 100
at time 1000 into the seeded cache). -/
theorem bestBid_max_bestAsk_min_after_upsert_witness :
    pX.bestBid = specBestBid (fun q => isFresh 1000 q.timestamp) pX ∧
    pX.bestAsk = specBestAsk (fun q => isFresh 1000 q.timestamp) pX :=
  bestBid_max_bestAsk_min_after_upsert allowedX 1000 stX .vest dxX "BTC" pX
    (by decide)
    (by norm_num [handleUpdate, ensurePair, cacheLookup, stX, allowedX, dxX, initCache,
      updateAndRecalculate, calculateSpreads, recomputePair, freshValidPairs, venueOrder,
      quoteOf, setQuote, createPair, isFresh, pX, List.lookup, zeroQuote, STALE_THRESHOLD,
      venueName])

/-- Counterexample to claim C2: after storing the vest quote of `d1X`
(timestamp 1000), the upsert of `d2X` (strictly older timestamp 500) is
not a no-op — `handleUpdate` overwrites the cached quote and the stored
timestamp regresses from 1000 to 500. -/
theorem older_timestamp_upsert_not_noop :
    (cacheLookup st1X.cache "BTC").map (fun p => (quoteOf p .vest).timestamp) =
      some 1000 ∧
    d2X.timestamp = 500 ∧
    (cacheLookup st2X.cache "BTC").map (fun p => (quoteOf p .vest).timestamp) =
      some 500 := by
  decide

/-- Claim C2 as amended: for an allow-listed symbol, `handleUpdate`
unconditionally overwrites the stored per-venue quote with the event's
bid, ask, timestamp and source — no timestamp comparison is made, so the
stored timestamp can regress. -/
theorem handleUpdate_overwrites_quote (allowed : List String) (now : Int)
    (st : AggState) (v : Venue) (d : TimestampedPrice)
    (hmem : d.symbol ∈ allowed) :
    (cacheLookup ((handleUpdate allowed now st v d).1.cache) d.symbol).map
        (fun p => quoteOf p v) =
      some { bid := d.bid, ask := d.ask, timestamp := d.timestamp,
             source := d.source } := by
  rw [handleUpdate_cache allowed now st v d hmem, calculateSpreads_lookup]
  by_cases hs : (cacheLookup st.cache d.symbol).isSome
  · rw [if_pos hs, cacheLookup_map_upd]
    obtain ⟨p0, hp0⟩ := Option.isSome_iff_exists.mp hs
    rw [hp0]
    simp [quoteOf_recomputePair, quoteOf_setQuote]
  · rw [if_neg hs, cacheLookup_map_upd,
        cacheLookup_append_of_none _ _ _ (Option.not_isSome_iff_eq_none.mp hs)]
    simp [quoteOf_recomputePair, quoteOf_setQuote]

/-- Witness for the amended C2 at the concrete update `d1X`. -/
theorem handleUpdate_overwrites_quote_witness :
    (cacheLookup ((handleUpdate allowedX 1000 stX .vest d1X).1.cache) d1X.symbol).map
        (fun p => quoteOf p .vest) =
      some { bid := d1X.bid, ask := d1X.ask, timestamp := d1X.timestamp,
             source := d1X.source } :=
  handleUpdate_overwrites_quote allowedX 1000 stX .vest d1X (by decide)

/-- Counterexample to claim C3: the crossed-book upsert `dxX` makes vest
both the best-bid and the best-ask venue with realSpread 1 % ≥ 0.5 %, and
the pipeline persists an AlertRecord (`rowX`, whose buy and sell
exchanges are both vest) — `updateAndRecalculate` never compares
bestBidEx with bestAskEx. -/
theorem same_venue_spread_persists_alert :
    (cacheLookup (handleUpdate allowedX 1000 stX .vest dxX).1.cache "BTC").map
        (fun p => (p.bestBidEx, p.bestAskEx, p.realSpread)) =
      some (some "vest", some "vest", 1) ∧
    (processAlerts (fun _ => none) 1000 true
        (handleUpdate allowedX 1000 stX .vest dxX).2.2).2 = [rowX] ∧
    rowX.exchange_buy = rowX.exchange_sell := by
  norm_num [handleUpdate, ensurePair, cacheLookup, stX, allowedX, dxX, initCache,
    updateAndRecalculate, calculateSpreads, recomputePair, freshValidPairs, venueOrder,
    quoteOf, setQuote, createPair, isFresh, rowX, List.lookup, zeroQuote, STALE_THRESHOLD,
    venueName, processAlerts, saveAlert, alertStep, ALERT_THRESHOLD, DB_SAVE_THROTTLE,
    CACHE_TTL]

/-- Claim C3 as amended: on a recomputation, a `saveAlert` persistence
attempt is made for a pair exactly when bestBid > 0, bestAsk > 0 and
realSpread ≥ ALERT_THRESHOLD — the best-bid venue is not required to
differ from the best-ask venue. -/
theorem alert_attempt_iff_threshold (now : Int) (st : AggState) :
    (updateAndRecalculate now st).2.2 =
      ((calculateSpreads st.cache (fun q => isFresh now q.timestamp)).map
        Prod.snd).filter
        (fun p => decide (0 < p.bestBid) && decide (0 < p.bestAsk) &&
          decide (ALERT_THRESHOLD ≤ p.realSpread)) := by
  have h := alertStep_foldl_alerts now
    ((calculateSpreads st.cache (fun q => isFresh now q.timestamp)).map Prod.snd)
    st.lastDbSave [] []
  simpa [updateAndRecalculate] using h

/-- Counterexample to claim C4: the initial pair of an unpopulated symbol
(all venue timestamps 0, so no quote has ever contributed, bestBid and
bestAsk both absent at value 0) carries `realSpread = 0` — the value zero
itself, not a sentinel distinct from every numeric spread. -/
theorem unpopulated_pair_spread_is_zero :
    (createPair "BTC").vest.timestamp = 0 ∧
    (createPair "BTC").lighter.timestamp = 0 ∧
    (createPair "BTC").paradex.timestamp = 0 ∧
    (createPair "BTC").extended.timestamp = 0 ∧
    (createPair "BTC").bestBid = 0 ∧ (createPair "BTC").bestAsk = 0 ∧
    (createPair "BTC").realSpread = 0 := by
  decide

/-- Claim C4 as amended: when no quote contributes, realSpread is 0 — the
same value as a computed zero spread — and the absence of signal shows
only in bestBid = bestAsk = 0 with absent venue fields, not in a distinct
spread sentinel. -/
theorem createPair_no_signal_value (s : String) :
    (createPair s).realSpread = 0 ∧ (createPair s).bestBid = 0 ∧
    (createPair s).bestAsk = 0 ∧ (createPair s).bestBidEx = none ∧
    (createPair s).bestAskEx = none :=
  ⟨rfl, rfl, rfl, rfl, rfl⟩

/-- Counterexample to claim C5: a failed persistence at time 1000 leaves
the dedup map without any timestamp for the symbol (nothing was
"retained"), so a second qualifying event at time 2000 — well inside the
60 s cool-down — makes a second persistence attempt, which writes. -/
theorem failed_persist_allows_retry_within_window :
    (saveAlert (fun _ => none) 1000 false (createPair "BTC")).1 = .error ∧
    ((saveAlert (fun _ => none) 1000 false (createPair "BTC")).2.1 "BTC") = none ∧
    (saveAlert (fun _ => none) 1000 false (createPair "BTC")).2.2 = [] ∧
    (saveAlert ((saveAlert (fun _ => none) 1000 false (createPair "BTC")).2.1)
        2000 true (createPair "BTC")).1 = .ok ∧
    (saveAlert ((saveAlert (fun _ => none) 1000 false (createPair "BTC")).2.1)
        2000 true (createPair "BTC")).2.2.length = 1 := by
  decide

/-- Claim C5 as amended: when the INSERT fails, `saveAlert` leaves the
per-symbol dedup map exactly as it was (the timestamp is written only
after a successful insert), writes no row and does not report success —
so dedup bounds successful persists per cool-down, not attempts. -/
theorem saveAlert_failure_keeps_cache (ac : String → Option Int) (now : Int)
    (opportunity : AggregatedPair) :
    (saveAlert ac now false opportunity).2.1 = ac ∧
    (saveAlert ac now false opportunity).2.2 = [] ∧
    (saveAlert ac now false opportunity).1 ≠ .ok := by
  simp only [saveAlert]
  split
  · split
    · simp
    · simp
  · simp

/-- Claim C6: two qualifying spread events for the same symbol within the
60 s cool-down, with the first persistence succeeding, yield exactly one
persisted AlertRecord: the first call writes one row and records the
timestamp, the second resolves `null` (dedup, not an error — that path
never throws) and writes nothing. -/
theorem alert_dedup_one_persist (t1 t2 : Int) (opp : AggregatedPair)
    (h1 : 0 < t1) (h2 : t2 - t1 < CACHE_TTL) :
    (saveAlert (fun _ => none) t1 true opp).1 = .ok ∧
    (saveAlert (fun _ => none) t1 true opp).2.2.length = 1 ∧
    (saveAlert (saveAlert (fun _ => none) t1 true opp).2.1 t2 true opp).1 =
      .dedup ∧
    (saveAlert (saveAlert (fun _ => none) t1 true opp).2.1 t2 true opp).2.2 =
      [] := by
  have hc1 : (saveAlert (fun _ => none) t1 true opp).2.1 =
      (fun s => if s = opp.symbol then some t1 else none) := by
    simp [saveAlert]
  refine ⟨by simp [saveAlert], by simp [saveAlert], ?_, ?_⟩
  · rw [hc1]
    simp [saveAlert, h1.ne', h2]
  · rw [hc1]
    simp [saveAlert, h1.ne', h2]

/-- Witness for C6 at times 1000 and 2000 for symbol BTC. -/
theorem alert_dedup_one_persist_witness :
    (saveAlert (fun _ => none) 1000 true (createPair "BTC")).1 = .ok ∧
    (saveAlert (fun _ => none) 1000 true (createPair "BTC")).2.2.length = 1 ∧
    (saveAlert (saveAlert (fun _ => none) 1000 true (createPair "BTC")).2.1
        2000 true (createPair "BTC")).1 = .dedup ∧
    (saveAlert (saveAlert (fun _ => none) 1000 true (createPair "BTC")).2.1
        2000 true (createPair "BTC")).2.2 = [] :=
  alert_dedup_one_persist 1000 2000 (createPair "BTC") (by decide) (by decide)

/-- Claim C7: a burst of N ≥ 1 cache-change signals inside one throttle
window, starting at least one window after the previous broadcast with no
trailing broadcast pending, produces: an immediate broadcast at the first
signal (reflecting that signal's state, version v0 + 1), and — when the
burst has further signals — exactly one trailing broadcast scheduled for
the remainder of the window, firing one full window after the immediate
one and reflecting the state as of the last signal (version
v0 + 1 + ts.length); consecutive broadcasts are thus a full window apart
(at most one broadcast per window). -/
theorem broadcast_burst_one_per_window (last0 : Int) (v0 : Nat)
    (L0 : List (Int × Nat)) (t1 : Int) (ts : List Int)
    (hgap : BROADCAST_THROTTLE ≤ t1 - last0)
    (hburst : ∀ t ∈ ts, t1 < t ∧ t < t1 + BROADCAST_THROTTLE) :
    (flushPending (runSignals ⟨last0, none, v0, L0⟩ (t1 :: ts))).log =
      L0 ++ (t1, v0 + 1) ::
        (if ts.isEmpty then []
         else [(t1 + BROADCAST_THROTTLE, v0 + 1 + ts.length)]) := by
  have hA : signalAt ⟨last0, none, v0, L0⟩ t1 =
      ⟨t1, none, v0 + 1, L0 ++ [(t1, v0 + 1)]⟩ := by
    simp [signalAt, fireDue, throttledBroadcast, performBroadcast, hgap]
  cases ts with
  | nil =>
      simp only [runSignals, List.foldl_cons, List.foldl_nil]
      rw [hA]
      simp [flushPending]
  | cons t2 rest =>
      obtain ⟨h2a, h2b⟩ := hburst t2 (List.mem_cons_self t2 rest)
      have hc : ¬ BROADCAST_THROTTLE ≤ t2 - t1 := by omega
      have hB : signalAt ⟨t1, none, v0 + 1, L0 ++ [(t1, v0 + 1)]⟩ t2 =
          ⟨t1, some (t1 + BROADCAST_THROTTLE), v0 + 1 + 1,
           L0 ++ [(t1, v0 + 1)]⟩ := by
        simp [signalAt, fireDue, throttledBroadcast, performBroadcast, hc]
      have hrest : ∀ t ∈ rest, t < t1 + BROADCAST_THROTTLE :=
        fun t htm => (hburst t (List.mem_cons_of_mem t2 htm)).2
      have hrec := runSignals_pending (t1 + BROADCAST_THROTTLE) rest
        ⟨t1, some (t1 + BROADCAST_THROTTLE), v0 + 1 + 1, L0 ++ [(t1, v0 + 1)]⟩
        rfl hrest
      simp only [runSignals] at hrec
      simp only [runSignals, List.foldl_cons]
      rw [hA, hB]
      rw [flushPending_log_of_some _ _ hrec.2.1, hrec.2.2.1, hrec.2.2.2]
      have hn : v0 + 1 + 1 + rest.length = v0 + 1 + (rest.length + 1) := by omega
      simp [hn, List.append_assoc]

/-- Witness for C7: a three-signal burst at 2000, 2100, 2200 from the
initial throttle state broadcasts at 2000 (version 1) and 3000
(version 3). -/
theorem broadcast_burst_one_per_window_witness :
    (flushPending (runSignals ⟨0, none, 0, []⟩ (2000 :: [2100, 2200]))).log =
      [] ++ (2000, 0 + 1) ::
        (if ([2100, 2200] : List Int).isEmpty then []
         else [(2000 + BROADCAST_THROTTLE,
                0 + 1 + ([2100, 2200] : List Int).length)]) :=
  broadcast_burst_one_per_window 0 0 [] 2000 [2100, 2200] (by decide) (by decide)

/-- Claim C8: a thrown request failure in a per-venue fetchMarkets is
caught, logged and converted into an empty result — it never escapes to
the caller (the embedding is a total function on the request outcome) —
and a single malformed record is skipped (filtered out) without aborting
the rest of the batch, for both the Extended and the Lighter service. -/
theorem fetchMarkets_failure_isolated
    (allowed : List String) (isCrypto : String → Bool) (e : Unit)
    (pre post : List ExtendedService.RawMarket) (bad : ExtendedService.RawMarket)
    (lpre lpost : List LighterService.RawMarket) (lbad : LighterService.RawMarket)
    (hbad : ExtendedService.parseMarket allowed bad = none)
    (hlbad : LighterService.parseMarket isCrypto lbad = none) :
    ExtendedService.fetchMarkets allowed (Except.error e) = ([], true) ∧
    LighterService.fetchMarkets isCrypto (Except.error e) = ([], true) ∧
    ExtendedService.fetchMarkets allowed
        (Except.ok { status := some "ok", data := some (pre ++ bad :: post) }) =
      ExtendedService.fetchMarkets allowed
        (Except.ok { status := some "ok", data := some (pre ++ post) }) ∧
    LighterService.fetchMarkets isCrypto
        (Except.ok (some (lpre ++ lbad :: lpost))) =
      LighterService.fetchMarkets isCrypto (Except.ok (some (lpre ++ lpost))) := by
  refine ⟨rfl, rfl, ?_, ?_⟩
  · simp [ExtendedService.fetchMarkets, List.filterMap_append, List.filterMap_cons,
      hbad, (by decide : strToLower "ok" = "ok")]
  · simp [LighterService.fetchMarkets, List.filterMap_append, List.filterMap_cons,
      hlbad]

/-- Malformed Extended record (missing name) used by the C8 witness. -/
def badExtX : ExtendedService.RawMarket :=
  { name := none, active := true, status := "ACTIVE", marketStats := none }

/-- Malformed Lighter record (not a perp market) used by the C8 witness. -/
def badLtrX : LighterService.RawMarket :=
  { market_type := "spot", status := "active", symbol := "BTC",
    best_bid := none, best_ask := none, last_trade_price := none }

/-- Witness for C8 at concrete malformed records and a thrown request. -/
theorem fetchMarkets_failure_isolated_witness :
    ExtendedService.fetchMarkets ["BTC"] (Except.error ()) = ([], true) ∧
    LighterService.fetchMarkets (fun _ => true) (Except.error ()) = ([], true) ∧
    ExtendedService.fetchMarkets ["BTC"]
        (Except.ok { status := some "ok", data := some ([] ++ badExtX :: []) }) =
      ExtendedService.fetchMarkets ["BTC"]
        (Except.ok { status := some "ok", data := some ([] ++ []) }) ∧
    LighterService.fetchMarkets (fun _ => true)
        (Except.ok (some ([] ++ badLtrX :: []))) =
      LighterService.fetchMarkets (fun _ => true) (Except.ok (some ([] ++ []))) :=
  fetchMarkets_failure_isolated ["BTC"] (fun _ => true) () [] [] badExtX [] []
    badLtrX (by decide) (by decide)

/-- Claim C9: starting from the seeded cache, after any sequence of
connector updates the cache holds an entry exactly for the allow-listed
symbols (an upsert for any other symbol is dropped at ingestion and never
creates an entry), and the snapshot returned by `getPriceCache` lists
exactly the allow-listed symbols. -/
theorem cache_symbols_match_allowlist (allowed : List String)
    (m0 : String → Option Int) (upds : List (Int × Venue × TimestampedPrice)) :
    (∀ s, (cacheLookup (applyUpdates allowed
        { cache := initCache allowed, lastDbSave := m0 } upds).cache s).isSome ↔
      s ∈ allowed) ∧
    (getPriceCache allowed (applyUpdates allowed
        { cache := initCache allowed, lastDbSave := m0 } upds).cache).map
        Prod.fst = allowed := by
  have hkeys := applyUpdates_keys allowed upds
    { cache := initCache allowed, lastDbSave := m0 } (initCache_keys allowed)
  constructor
  · intro s
    unfold cacheLookup
    rw [lookup_isSome_iff, hkeys]
  · refine getPriceCache_keys allowed _ (fun s hs => ?_)
    unfold cacheLookup
    rw [lookup_isSome_iff, hkeys]
    exact hs

/-- Claim C10: every row `saveAlert` writes maps the buy side to the
best-ask venue and price and the sell side to the best-bid venue and
price: exchange_buy = bestAskEx with price_buy = bestAsk, and
exchange_sell = bestBidEx with price_sell = bestBid. -/
theorem alert_row_buy_ask_sell_bid (ac : String → Option Int) (now : Int)
    (dbOk : Bool) (opportunity : AggregatedPair) (r : AlertRow)
    (hr : r ∈ (saveAlert ac now dbOk opportunity).2.2) :
    r.exchange_buy = opportunity.bestAskEx ∧ r.price_buy = opportunity.bestAsk ∧
    r.exchange_sell = opportunity.bestBidEx ∧ r.price_sell = opportunity.bestBid ∧
    r.symbol = opportunity.symbol ∧ r.spread = opportunity.realSpread := by
  simp only [saveAlert] at hr
  split at hr
  · split at hr
    · simp at hr
    · split at hr
      · simp at hr
        subst hr
        exact ⟨rfl, rfl, rfl, rfl, rfl, rfl⟩
      · simp at hr
  · split at hr
    · simp at hr
      subst hr
      exact ⟨rfl, rfl, rfl, rfl, rfl, rfl⟩
    · simp at hr

/-- Witness for C10 at the concrete persisted row `rowX` of `pX`. -/
theorem alert_row_buy_ask_sell_bid_witness :
    rowX.exchange_buy = pX.bestAskEx ∧ rowX.price_buy = pX.bestAsk ∧
    rowX.exchange_sell = pX.bestBidEx ∧ rowX.price_sell = pX.bestBid ∧
    rowX.symbol = pX.symbol ∧ rowX.spread = pX.realSpread :=
  alert_row_buy_ask_sell_bid (fun _ => none) 1000 true pX rowX (by decide)
